import Mathlib

/-!
Verification of the BioFinanceAnalyzer financial derivation engine.

The source is a TypeScript React application; the numeric core is the
`results` computation in `src/App.tsx` (a pure function of the current
`FinancialInputs` snapshot), together with the input-reconciliation helpers
in `src/components/InputForm.tsx` and the edit handler `handleInputChange`
in `src/App.tsx`.

JavaScript numbers are embedded as the type `JSNum`: an exact rational
(`fin q`), `+∞`, `-∞`, or `NaN`, with the IEEE-754 special-value rules for
arithmetic and comparisons (any comparison with NaN is false, `∞ - ∞ = NaN`,
`0 * ∞ = NaN`, `x / 0` is a signed infinity or NaN, and so on), but with
finite arithmetic taken exact over ℚ.  Input fields are finite JavaScript
numbers and are embedded as plain rationals.
-/

/-- A JavaScript (IEEE-754 double) number, with finite values taken as exact
rationals.  The negative-zero distinction is dropped: no computation in the
embedded code distinguishes `0` from `-0`. -/
inductive JSNum where
  | nan : JSNum
  | posInf : JSNum
  | negInf : JSNum
  | fin : ℚ → JSNum
deriving DecidableEq, Repr

namespace JSNum

/-- JavaScript addition. -/
def add : JSNum → JSNum → JSNum
  | nan, _ => nan
  | _, nan => nan
  | posInf, negInf => nan
  | negInf, posInf => nan
  | posInf, _ => posInf
  | _, posInf => posInf
  | negInf, _ => negInf
  | _, negInf => negInf
  | fin a, fin b => fin (a + b)

/-- JavaScript unary negation. -/
def neg : JSNum → JSNum
  | nan => nan
  | posInf => negInf
  | negInf => posInf
  | fin a => fin (-a)

/-- JavaScript subtraction (`a - b = a + (-b)` in IEEE-754). -/
def sub (a b : JSNum) : JSNum := a.add b.neg

/-- JavaScript multiplication. -/
def mul : JSNum → JSNum → JSNum
  | nan, _ => nan
  | _, nan => nan
  | posInf, posInf => posInf
  | posInf, negInf => negInf
  | negInf, posInf => negInf
  | negInf, negInf => posInf
  | posInf, fin b => if 0 < b then posInf else if b < 0 then negInf else nan
  | fin a, posInf => if 0 < a then posInf else if a < 0 then negInf else nan
  | negInf, fin b => if 0 < b then negInf else if b < 0 then posInf else nan
  | fin a, negInf => if 0 < a then negInf else if a < 0 then posInf else nan
  | fin a, fin b => fin (a * b)

/-- JavaScript division.  Division of a nonzero finite number by zero gives a
signed infinity; `0 / 0`, `∞ / ∞` give NaN; a finite number over an infinity
gives `0`. -/
def div : JSNum → JSNum → JSNum
  | nan, _ => nan
  | _, nan => nan
  | posInf, posInf => nan
  | posInf, negInf => nan
  | negInf, posInf => nan
  | negInf, negInf => nan
  | posInf, fin b => if 0 ≤ b then posInf else negInf
  | negInf, fin b => if 0 ≤ b then negInf else posInf
  | fin _, posInf => fin 0
  | fin _, negInf => fin 0
  | fin a, fin b =>
      if b = 0 then (if 0 < a then posInf else if a < 0 then negInf else nan)
      else fin (a / b)

/-- JavaScript `<`: false whenever either side is NaN. -/
def lt : JSNum → JSNum → Bool
  | nan, _ => false
  | _, nan => false
  | posInf, _ => false
  | negInf, posInf => true
  | negInf, negInf => false
  | negInf, fin _ => true
  | fin _, posInf => true
  | fin _, negInf => false
  | fin a, fin b => decide (a < b)

/-- JavaScript `<=`: false whenever either side is NaN. -/
def le : JSNum → JSNum → Bool
  | nan, _ => false
  | _, nan => false
  | negInf, _ => true
  | _, posInf => true
  | posInf, _ => false
  | fin _, negInf => false
  | fin a, fin b => decide (a ≤ b)

/-- JavaScript `>` (for numbers, `a > b` holds exactly when `b < a`). -/
def gt (a b : JSNum) : Bool := lt b a

@[simp] theorem add_fin_fin (a b : ℚ) : (fin a).add (fin b) = fin (a + b) := rfl

@[simp] theorem sub_fin_fin (a b : ℚ) : (fin a).sub (fin b) = fin (a - b) := by
  simp [sub, neg, add, sub_eq_add_neg]

@[simp] theorem mul_fin_fin (a b : ℚ) : (fin a).mul (fin b) = fin (a * b) := rfl

@[simp] theorem posInf_sub_fin (b : ℚ) : posInf.sub (fin b) = posInf := rfl

@[simp] theorem fin_div_posInf (a : ℚ) : (fin a).div posInf = fin 0 := rfl

theorem div_fin_fin (a b : ℚ) (hb : b ≠ 0) : (fin a).div (fin b) = fin (a / b) := by
  simp [div, hb]

@[simp] theorem lt_fin_fin (a b : ℚ) : lt (fin a) (fin b) = decide (a < b) := rfl

@[simp] theorem le_fin_fin (a b : ℚ) : le (fin a) (fin b) = decide (a ≤ b) := rfl

@[simp] theorem lt_fin_posInf (a : ℚ) : lt (fin a) posInf = true := rfl

@[simp] theorem gt_posInf_fin (b : ℚ) : gt posInf (fin b) = true := rfl

@[simp] theorem gt_fin_fin (a b : ℚ) : gt (fin a) (fin b) = decide (b < a) := rfl

end JSNum

/-! ## Data model (`src/types.ts`) -/

/-- One line of the fixed-cost detail list (`FCItem` in `src/types.ts`). -/
structure FCItem where
  id : String
  name : String
  amount : ℚ
deriving DecidableEq, Repr

/-- One product-mix entry (`ProductItem` in `src/types.ts`). -/
structure ProductItem where
  id : String
  name : String
  p : ℚ
  vc : ℚ
  mix : ℚ
deriving DecidableEq, Repr

/-- AI provider configuration (`AIConfig` in `src/types.ts`); opaque to the
calculation engine. -/
structure AIConfig where
  provider : String
  model : String
  language : String
deriving DecidableEq, Repr

/-- The `tpMode` discriminator: is the target profit given as an amount or a
margin rate? -/
inductive TpMode where
  | amount : TpMode
  | rate : TpMode
deriving DecidableEq, Repr

/-- The `fcMode` / `productMode` discriminator between direct entry and
detail-list entry. -/
inductive DetailMode where
  | simple : DetailMode
  | detailed : DetailMode
deriving DecidableEq, Repr

/-- Engine input snapshot (`FinancialInputs` in `src/types.ts`).  Numeric
fields are finite JavaScript numbers, embedded as rationals. -/
structure FinancialInputs where
  fc : ℚ
  p : ℚ
  vc : ℚ
  tp : ℚ
  tpMode : TpMode
  tpRate : ℚ
  salesExpenses : ℚ
  targetNetProfit : ℚ
  fcMode : DetailMode
  fcDetails : List FCItem
  productMode : DetailMode
  productDetails : List ProductItem
  aiConfig : AIConfig
deriving DecidableEq, Repr

/-- Engine output (`CalculationResults` in `src/types.ts`).  Derived fields
are JavaScript numbers and may be infinite. -/
structure CalculationResults where
  cm : JSNum
  cmr : JSNum
  bepUnits : JSNum
  bepAmount : JSNum
  bepNetUnits : JSNum
  bepNetAmount : JSNum
  targetUnits : JSNum
  targetAmount : JSNum
  totalVC : JSNum
  totalBusinessCost : JSNum
  totalAllCost : JSNum
  effectiveGrossTp : JSNum
  effectiveNetTp : JSNum
  safetyMargin : JSNum
  isValid : Bool
deriving DecidableEq, Repr

/-! ## The derivation engine (`src/App.tsx`, `results` useMemo)

Each `const` of the source's valid branch becomes one definition, evaluated
with JavaScript arithmetic on `JSNum`.  The degenerate `p ≤ vc` case is
handled by the guard in `evaluate` before any of these are consulted. -/

namespace App

/-- `const cm = p - vc` — contribution margin per unit (finite: inputs are
finite). -/
def cm (i : FinancialInputs) : ℚ := i.p - i.vc

/-- `const cmr = cm / p` — contribution margin ratio (JavaScript division:
`+∞` when `p = 0`). -/
def cmr (i : FinancialInputs) : JSNum := (JSNum.fin (cm i)).div (JSNum.fin i.p)

/-- `const bepUnits = fc / cm`. -/
def bepUnits (i : FinancialInputs) : JSNum := (JSNum.fin i.fc).div (JSNum.fin (cm i))

/-- `const bepAmount = fc / cmr`. -/
def bepAmount (i : FinancialInputs) : JSNum := (JSNum.fin i.fc).div (cmr i)

/-- `const totalFixedCosts = fc + salesExpenses`. -/
def totalFixedCosts (i : FinancialInputs) : ℚ := i.fc + i.salesExpenses

/-- `const bepNetUnits = totalFixedCosts / cm`. -/
def bepNetUnits (i : FinancialInputs) : JSNum :=
  (JSNum.fin (totalFixedCosts i)).div (JSNum.fin (cm i))

/-- `const bepNetAmount = totalFixedCosts / cmr`. -/
def bepNetAmount (i : FinancialInputs) : JSNum :=
  (JSNum.fin (totalFixedCosts i)).div (cmr i)

/-- `const rateDecimal = tpRate / 100` (rate branch). -/
def rateDecimal (i : FinancialInputs) : ℚ := i.tpRate / 100

/-- The rate branch's `cmr > rateDecimal` test (JavaScript `>`). -/
def rateReachable (i : FinancialInputs) : Bool :=
  (cmr i).gt (JSNum.fin (rateDecimal i))

/-- `targetAmount`: `fc / (cmr - rateDecimal)` in the reachable rate branch,
`Infinity` in the unreachable one, `(fc + tp) / cmr` in amount mode. -/
def targetAmount (i : FinancialInputs) : JSNum :=
  if i.tpMode = TpMode.rate then
    if rateReachable i then
      (JSNum.fin i.fc).div ((cmr i).sub (JSNum.fin (rateDecimal i)))
    else JSNum.posInf
  else (JSNum.fin (i.fc + i.tp)).div (cmr i)

/-- `targetUnits`: `targetAmount / p` in the reachable rate branch,
`Infinity` in the unreachable one, `(fc + tp) / cm` in amount mode. -/
def targetUnits (i : FinancialInputs) : JSNum :=
  if i.tpMode = TpMode.rate then
    if rateReachable i then (targetAmount i).div (JSNum.fin i.p)
    else JSNum.posInf
  else (JSNum.fin (i.fc + i.tp)).div (JSNum.fin (cm i))

/-- `effectiveGrossTp`: `targetAmount * rateDecimal` in the reachable rate
branch, `Infinity` in the unreachable one, `tp` in amount mode. -/
def effectiveGrossTp (i : FinancialInputs) : JSNum :=
  if i.tpMode = TpMode.rate then
    if rateReachable i then (targetAmount i).mul (JSNum.fin (rateDecimal i))
    else JSNum.posInf
  else JSNum.fin i.tp

/-- `const totalVC = targetUnits === Infinity ? Infinity : targetUnits * vc`. -/
def totalVC (i : FinancialInputs) : JSNum :=
  if targetUnits i = JSNum.posInf then JSNum.posInf
  else (targetUnits i).mul (JSNum.fin i.vc)

/-- `const totalBusinessCost = targetUnits === Infinity ? Infinity : fc + totalVC`. -/
def totalBusinessCost (i : FinancialInputs) : JSNum :=
  if targetUnits i = JSNum.posInf then JSNum.posInf
  else (JSNum.fin i.fc).add (totalVC i)

/-- `const totalAllCost = targetUnits === Infinity ? Infinity : totalBusinessCost + salesExpenses`. -/
def totalAllCost (i : FinancialInputs) : JSNum :=
  if targetUnits i = JSNum.posInf then JSNum.posInf
  else (totalBusinessCost i).add (JSNum.fin i.salesExpenses)

/-- `const effectiveNetTp = effectiveGrossTp - salesExpenses`. -/
def effectiveNetTp (i : FinancialInputs) : JSNum :=
  (effectiveGrossTp i).sub (JSNum.fin i.salesExpenses)

/-- `const safetyMargin = targetAmount > 0 && targetAmount !== Infinity
? (targetAmount - bepAmount) / targetAmount : 0`. -/
def safetyMargin (i : FinancialInputs) : JSNum :=
  if (targetAmount i).gt (JSNum.fin 0) = true ∧ targetAmount i ≠ JSNum.posInf then
    ((targetAmount i).sub (bepAmount i)).div (targetAmount i)
  else JSNum.fin 0

/-- The all-zero result returned by the `p <= vc` validity guard. -/
def zeroResults : CalculationResults :=
  { cm := JSNum.fin 0, cmr := JSNum.fin 0
    bepUnits := JSNum.fin 0, bepAmount := JSNum.fin 0
    bepNetUnits := JSNum.fin 0, bepNetAmount := JSNum.fin 0
    targetUnits := JSNum.fin 0, targetAmount := JSNum.fin 0
    totalVC := JSNum.fin 0, totalBusinessCost := JSNum.fin 0
    totalAllCost := JSNum.fin 0
    effectiveGrossTp := JSNum.fin 0, effectiveNetTp := JSNum.fin 0
    safetyMargin := JSNum.fin 0, isValid := false }

/-- The `results` useMemo of `src/App.tsx`: the engine proper.  The guard
`if (p <= vc)` returns `zeroResults` before any of the derived quantities
(and in particular any division) is evaluated. -/
def evaluate (i : FinancialInputs) : CalculationResults :=
  if i.p ≤ i.vc then zeroResults
  else
    { cm := JSNum.fin (cm i), cmr := cmr i
      bepUnits := bepUnits i, bepAmount := bepAmount i
      bepNetUnits := bepNetUnits i, bepNetAmount := bepNetAmount i
      targetUnits := targetUnits i, targetAmount := targetAmount i
      totalVC := totalVC i, totalBusinessCost := totalBusinessCost i
      totalAllCost := totalAllCost i
      effectiveGrossTp := effectiveGrossTp i, effectiveNetTp := effectiveNetTp i
      safetyMargin := safetyMargin i, isValid := true }

end App

/-! ## Edit handling (`src/App.tsx`, `handleInputChange`)

`handleInputChange` receives a `Partial<FinancialInputs>` object; presence of
a key is modelled by `Option`.  The `aiConfig` field is never part of such an
update (it has its own handler `updateAIConfig`). -/

/-- A `Partial<FinancialInputs>` update object: `some` for fields present in
the update, `none` for absent ones. -/
structure PartialInputs where
  fc : Option ℚ := none
  p : Option ℚ := none
  vc : Option ℚ := none
  tp : Option ℚ := none
  tpMode : Option TpMode := none
  tpRate : Option ℚ := none
  salesExpenses : Option ℚ := none
  targetNetProfit : Option ℚ := none
  fcMode : Option DetailMode := none
  fcDetails : Option (List FCItem) := none
  productMode : Option DetailMode := none
  productDetails : Option (List ProductItem) := none
deriving DecidableEq, Repr

namespace App

/-- The spread `{ ...prev, ...updates }`: present fields of the update win. -/
def merge (prev : FinancialInputs) (u : PartialInputs) : FinancialInputs :=
  { fc := u.fc.getD prev.fc
    p := u.p.getD prev.p
    vc := u.vc.getD prev.vc
    tp := u.tp.getD prev.tp
    tpMode := u.tpMode.getD prev.tpMode
    tpRate := u.tpRate.getD prev.tpRate
    salesExpenses := u.salesExpenses.getD prev.salesExpenses
    targetNetProfit := u.targetNetProfit.getD prev.targetNetProfit
    fcMode := u.fcMode.getD prev.fcMode
    fcDetails := u.fcDetails.getD prev.fcDetails
    productMode := u.productMode.getD prev.productMode
    productDetails := u.productDetails.getD prev.productDetails
    aiConfig := prev.aiConfig }

/-- `handleInputChange` from `src/App.tsx`: merge the update into the previous
state, then, in amount mode, resynchronise `targetNetProfit` and `tp`
(the key tests `'tp' in updates` etc. become `Option.isSome`). -/
def handleInputChange (prev : FinancialInputs) (updates : PartialInputs) :
    FinancialInputs :=
  let newInputs := merge prev updates
  if newInputs.tpMode = TpMode.amount then
    if updates.tp.isSome || updates.salesExpenses.isSome then
      { newInputs with targetNetProfit := newInputs.tp - newInputs.salesExpenses }
    else if updates.targetNetProfit.isSome then
      { newInputs with tp := newInputs.targetNetProfit + newInputs.salesExpenses }
    else newInputs
  else newInputs

end App

/-! ## Input-reconciliation helpers (`src/components/InputForm.tsx`)

Each handler builds a partial update and passes it to `onChange`, which is
`handleInputChange` in `src/App.tsx`.  The helpers are modelled as functions
from the current inputs to the partial update they emit.  The sums written
`sum + (Number(item.amount) || 0)` in the source coincide with plain rational
sums here, since fields are embedded as rationals (the `Number(..) || 0`
guard only rewrites NaN and other non-numbers to `0`). -/

namespace InputForm

/-- `details.reduce((sum, item) => sum + item.amount, 0)`. -/
def fcSum (details : List FCItem) : ℚ :=
  details.foldl (fun sum item => sum + item.amount) 0

/-- `toggleFCMode`: simple → detailed seeds `fc` with the current detail sum;
detailed → simple only flips the mode. -/
def toggleFCMode (i : FinancialInputs) : PartialInputs :=
  if i.fcMode = DetailMode.simple then
    { fcMode := some DetailMode.detailed, fc := some (fcSum i.fcDetails) }
  else
    { fcMode := some DetailMode.simple }

/-- The `[field]: value` part of `updateFCItem` (`field` is `'name'` or
`'amount'`; an `'id'` update is never issued by the form). -/
inductive FCFieldUpdate where
  | name : String → FCFieldUpdate
  | amount : ℚ → FCFieldUpdate
deriving DecidableEq, Repr

/-- `{ ...item, [field]: value }`. -/
def applyFCField (item : FCItem) : FCFieldUpdate → FCItem
  | FCFieldUpdate.name s => { item with name := s }
  | FCFieldUpdate.amount q => { item with amount := q }

/-- `updateFCItem`: rewrite the matching item, then emit the new list together
with its recomputed total as `fc`. -/
def updateFCItem (i : FinancialInputs) (id : String) (value : FCFieldUpdate) :
    PartialInputs :=
  let newDetails := i.fcDetails.map
    (fun item => if item.id = id then applyFCField item value else item)
  { fcDetails := some newDetails, fc := some (fcSum newDetails) }

/-- `addFCItem`: append a fresh zero-amount item (its id comes from
`Date.now()`, passed in here); `fc` is not part of the update. -/
def addFCItem (i : FinancialInputs) (newId : String) : PartialInputs :=
  { fcDetails := some (i.fcDetails ++ [{ id := newId, name := "新费用项", amount := 0 }]) }

/-- `removeFCItem`: drop the matching item and emit the recomputed total. -/
def removeFCItem (i : FinancialInputs) (id : String) : PartialInputs :=
  let newDetails := i.fcDetails.filter (fun item => item.id ≠ id)
  { fcDetails := some newDetails, fc := some (fcSum newDetails) }

/-- `details.reduce((sum, item) => sum + (Number(item.mix) || 0), 0)`. -/
def totalMix (details : List ProductItem) : ℚ :=
  details.foldl (fun sum item => sum + item.mix) 0

/-- The `weightedP` accumulation: `Σ p_i * (mix_i / totalMix)`. -/
def weightedP (details : List ProductItem) : ℚ :=
  details.foldl (fun acc item => acc + item.p * (item.mix / totalMix details)) 0

/-- The `weightedVC` accumulation: `Σ vc_i * (mix_i / totalMix)`. -/
def weightedVC (details : List ProductItem) : ℚ :=
  details.foldl (fun acc item => acc + item.vc * (item.mix / totalMix details)) 0

/-- `parseFloat(x.toFixed(2))`: round to 2 decimal places, ties toward `+∞`
(the ECMAScript `toFixed` tie rule picks the larger candidate). -/
def round2 (q : ℚ) : ℚ := (Int.floor (q * 100 + 1 / 2) : ℚ) / 100

/-- `recalculateWeightedAvg`: store the rounded mix-weighted averages as the
authoritative `p` / `vc`, or zeros when the total mix is zero. -/
def recalculateWeightedAvg (details : List ProductItem) : PartialInputs :=
  if totalMix details = 0 then
    { productDetails := some details, p := some 0, vc := some 0 }
  else
    { productDetails := some details
      p := some (round2 (weightedP details))
      vc := some (round2 (weightedVC details)) }

end InputForm

/-! ## Structural lemmas about the engine -/

namespace App

theorem cm_pos (i : FinancialInputs) (h : i.vc < i.p) : 0 < cm i := by
  simpa [cm] using sub_pos.mpr h

theorem cm_ne_zero (i : FinancialInputs) (h : i.vc < i.p) : cm i ≠ 0 :=
  ne_of_gt (cm_pos i h)

theorem cmr_of_p_zero (i : FinancialInputs) (h : i.vc < i.p) (hp : i.p = 0) :
    cmr i = JSNum.posInf := by
  have hcm : 0 < cm i := cm_pos i h
  simp [cmr, JSNum.div, hp, hcm]

theorem cmr_of_p_ne_zero (i : FinancialInputs) (hp : i.p ≠ 0) :
    cmr i = JSNum.fin ((i.p - i.vc) / i.p) := by
  rw [cmr, JSNum.div_fin_fin _ _ hp, cm]

theorem cmr_ratio_pos (i : FinancialInputs) (h : i.vc < i.p) (hvc : 0 ≤ i.vc) :
    0 < (i.p - i.vc) / i.p :=
  div_pos (sub_pos.mpr h) (lt_of_le_of_lt hvc h)

theorem evaluate_of_valid (i : FinancialInputs) (h : i.vc < i.p) :
    evaluate i =
      { cm := JSNum.fin (cm i), cmr := cmr i
        bepUnits := bepUnits i, bepAmount := bepAmount i
        bepNetUnits := bepNetUnits i, bepNetAmount := bepNetAmount i
        targetUnits := targetUnits i, targetAmount := targetAmount i
        totalVC := totalVC i, totalBusinessCost := totalBusinessCost i
        totalAllCost := totalAllCost i
        effectiveGrossTp := effectiveGrossTp i, effectiveNetTp := effectiveNetTp i
        safetyMargin := safetyMargin i, isValid := true } := by
  rw [evaluate, if_neg (not_le.mpr h)]

/-- In amount mode (with `p ≠ 0`) the target trio is finite and explicit. -/
theorem target_amount_mode (i : FinancialInputs) (hm : i.tpMode = TpMode.amount)
    (h : i.vc < i.p) (hp : i.p ≠ 0) :
    targetUnits i = JSNum.fin ((i.fc + i.tp) / (i.p - i.vc)) ∧
    targetAmount i = JSNum.fin ((i.fc + i.tp) / ((i.p - i.vc) / i.p)) ∧
    effectiveGrossTp i = JSNum.fin i.tp := by
  have hc : (i.p - i.vc) / i.p ≠ 0 :=
    div_ne_zero (sub_ne_zero.mpr (ne_of_gt h)) hp
  refine ⟨?_, ?_, ?_⟩
  · rw [targetUnits, if_neg (by simp [hm]), JSNum.div_fin_fin _ _ (cm_ne_zero i h), cm]
  · rw [targetAmount, if_neg (by simp [hm]), cmr_of_p_ne_zero i hp,
      JSNum.div_fin_fin _ _ hc]
  · rw [effectiveGrossTp, if_neg (by simp [hm])]

/-- In rate mode with `p ≠ 0` and the margin reachable (`rate < cmr`), the
target trio is finite and explicit. -/
theorem target_rate_reachable (i : FinancialInputs) (hm : i.tpMode = TpMode.rate)
    (hp : i.p ≠ 0) (hr : rateDecimal i < (i.p - i.vc) / i.p) :
    targetUnits i = JSNum.fin (i.fc / ((i.p - i.vc) / i.p - rateDecimal i) / i.p) ∧
    targetAmount i = JSNum.fin (i.fc / ((i.p - i.vc) / i.p - rateDecimal i)) ∧
    effectiveGrossTp i = JSNum.fin (i.fc / ((i.p - i.vc) / i.p - rateDecimal i) * rateDecimal i) := by
  have hreach : rateReachable i = true := by
    rw [rateReachable, cmr_of_p_ne_zero i hp]
    simpa using hr
  have hsub : (i.p - i.vc) / i.p - rateDecimal i ≠ 0 :=
    ne_of_gt (sub_pos.mpr hr)
  have hta : targetAmount i = JSNum.fin (i.fc / ((i.p - i.vc) / i.p - rateDecimal i)) := by
    rw [targetAmount, if_pos hm, if_pos hreach, cmr_of_p_ne_zero i hp,
      JSNum.sub_fin_fin, JSNum.div_fin_fin _ _ hsub]
  refine ⟨?_, hta, ?_⟩
  · rw [targetUnits, if_pos hm, if_pos hreach, hta, JSNum.div_fin_fin _ _ hp]
  · rw [effectiveGrossTp, if_pos hm, if_pos hreach, hta, JSNum.mul_fin_fin]

/-- In rate mode with the margin unreachable (`cmr ≤ rate`, `p ≠ 0`), the
target trio is `+∞`. -/
theorem target_rate_unreachable (i : FinancialInputs) (hm : i.tpMode = TpMode.rate)
    (hp : i.p ≠ 0) (hr : (i.p - i.vc) / i.p ≤ rateDecimal i) :
    targetUnits i = JSNum.posInf ∧ targetAmount i = JSNum.posInf ∧
    effectiveGrossTp i = JSNum.posInf := by
  have hreach : rateReachable i = false := by
    rw [rateReachable, cmr_of_p_ne_zero i hp]
    simpa using not_lt.mpr hr
  refine ⟨?_, ?_, ?_⟩
  · rw [targetUnits, if_pos hm, hreach]; simp
  · rw [targetAmount, if_pos hm, hreach]; simp
  · rw [effectiveGrossTp, if_pos hm, hreach]; simp

end App

/-! ## Concrete snapshots (`src/constants.ts`) -/

/-- The default AI configuration of `DEFAULT_INPUTS`. -/
def defaultAIConfig : AIConfig :=
  { provider := "google", model := "gemini-3-pro-preview", language := "zh" }

/-- `DEFAULT_INPUTS` from `src/constants.ts` (which predates the
`salesExpenses` / `targetNetProfit` fields; they default to `0` and
`tp - salesExpenses` on load, per `App.tsx`). -/
def DEFAULT_INPUTS : FinancialInputs :=
  { fc := 2000000, p := 15000, vc := 5000, tp := 1000000
    tpMode := TpMode.amount, tpRate := 20
    salesExpenses := 0, targetNetProfit := 1000000
    fcMode := DetailMode.simple
    fcDetails :=
      [ { id := "1", name := "厂房租金 & 物业", amount := 800000 }
      , { id := "2", name := "技术人员薪资", amount := 900000 }
      , { id := "3", name := "设备折旧摊销", amount := 200000 }
      , { id := "4", name := "行政与市场费用", amount := 100000 } ]
    productMode := DetailMode.simple
    productDetails :=
      [ { id := "1", name := "基础细胞存储", p := 8000, vc := 2000, mix := 40 }
      , { id := "2", name := "标准细胞制备", p := 18000, vc := 6000, mix := 50 }
      , { id := "3", name := "高端定制服务", p := 35000, vc := 12000, mix := 10 } ]
    aiConfig := defaultAIConfig }

/-- A degenerate snapshot (`p = vc = 15000`), as in the spec's Scenario C. -/
def degenInputs : FinancialInputs := { DEFAULT_INPUTS with vc := 15000 }

/-- The default snapshot switched to rate mode (`tpRate = 20`, reachable
since `cmr = 2/3`). -/
def rateInputs : FinancialInputs := { DEFAULT_INPUTS with tpMode := TpMode.rate }

/-- The default snapshot switched to rate mode with `tpRate = 80`
(unreachable, the spec's Scenario B). -/
def rateInputsHigh : FinancialInputs :=
  { DEFAULT_INPUTS with tpMode := TpMode.rate, tpRate := 80 }

/-! ## Claims -/

/-- **C1.**  For every `FinancialInputs` with `p ≤ vc`, `evaluate` returns a
result with `isValid = false` and every numeric field equal to `0`; the guard
short-circuits, returning the constant all-zero record before any derived
quantity (in particular any division) is computed. -/
theorem claim_C1 (i : FinancialInputs) (h : i.p ≤ i.vc) :
    App.evaluate i = App.zeroResults ∧
    (App.evaluate i).isValid = false ∧
    (App.evaluate i).cm = JSNum.fin 0 ∧ (App.evaluate i).cmr = JSNum.fin 0 ∧
    (App.evaluate i).bepUnits = JSNum.fin 0 ∧ (App.evaluate i).bepAmount = JSNum.fin 0 ∧
    (App.evaluate i).bepNetUnits = JSNum.fin 0 ∧ (App.evaluate i).bepNetAmount = JSNum.fin 0 ∧
    (App.evaluate i).targetUnits = JSNum.fin 0 ∧ (App.evaluate i).targetAmount = JSNum.fin 0 ∧
    (App.evaluate i).totalVC = JSNum.fin 0 ∧ (App.evaluate i).totalBusinessCost = JSNum.fin 0 ∧
    (App.evaluate i).totalAllCost = JSNum.fin 0 ∧
    (App.evaluate i).effectiveGrossTp = JSNum.fin 0 ∧
    (App.evaluate i).effectiveNetTp = JSNum.fin 0 ∧
    (App.evaluate i).safetyMargin = JSNum.fin 0 := by
  have hz : App.evaluate i = App.zeroResults := by rw [App.evaluate, if_pos h]
  refine ⟨hz, ?_⟩
  rw [hz]
  simp [App.zeroResults]

/-- Witness for C1 at the degenerate snapshot `p = vc = 15000`. -/
theorem claim_C1_witness :
    App.evaluate degenInputs = App.zeroResults ∧
    (App.evaluate degenInputs).isValid = false ∧
    (App.evaluate degenInputs).cm = JSNum.fin 0 ∧ (App.evaluate degenInputs).cmr = JSNum.fin 0 ∧
    (App.evaluate degenInputs).bepUnits = JSNum.fin 0 ∧ (App.evaluate degenInputs).bepAmount = JSNum.fin 0 ∧
    (App.evaluate degenInputs).bepNetUnits = JSNum.fin 0 ∧ (App.evaluate degenInputs).bepNetAmount = JSNum.fin 0 ∧
    (App.evaluate degenInputs).targetUnits = JSNum.fin 0 ∧ (App.evaluate degenInputs).targetAmount = JSNum.fin 0 ∧
    (App.evaluate degenInputs).totalVC = JSNum.fin 0 ∧ (App.evaluate degenInputs).totalBusinessCost = JSNum.fin 0 ∧
    (App.evaluate degenInputs).totalAllCost = JSNum.fin 0 ∧
    (App.evaluate degenInputs).effectiveGrossTp = JSNum.fin 0 ∧
    (App.evaluate degenInputs).effectiveNetTp = JSNum.fin 0 ∧
    (App.evaluate degenInputs).safetyMargin = JSNum.fin 0 :=
  claim_C1 degenInputs (by decide)

/-- **C2.**  In rate mode (with `p > vc`), letting `rate = tpRate / 100`:
when `cmr > rate` (JavaScript `>`), `targetAmount = fc / (cmr - rate)`,
`targetUnits = targetAmount / p`, `effectiveGrossTp = targetAmount * rate`
(so `effectiveGrossTp / targetAmount = rate` whenever `targetAmount` is a
nonzero finite value), and when `cmr ≤ rate` (JavaScript `<=`) the three
target fields are `+∞`. -/
theorem claim_C2 (i : FinancialInputs) (hm : i.tpMode = TpMode.rate)
    (h : i.vc < i.p) :
    (((App.evaluate i).cmr.gt (JSNum.fin (i.tpRate / 100)) = true) →
      (App.evaluate i).targetAmount
          = (JSNum.fin i.fc).div ((App.evaluate i).cmr.sub (JSNum.fin (i.tpRate / 100))) ∧
      (App.evaluate i).targetUnits = (App.evaluate i).targetAmount.div (JSNum.fin i.p) ∧
      (App.evaluate i).effectiveGrossTp
          = (App.evaluate i).targetAmount.mul (JSNum.fin (i.tpRate / 100)) ∧
      (∀ t : ℚ, (App.evaluate i).targetAmount = JSNum.fin t → t ≠ 0 →
        (App.evaluate i).effectiveGrossTp.div ((App.evaluate i).targetAmount)
          = JSNum.fin (i.tpRate / 100))) ∧
    (((App.evaluate i).cmr.le (JSNum.fin (i.tpRate / 100)) = true) →
      (App.evaluate i).targetAmount = JSNum.posInf ∧
      (App.evaluate i).targetUnits = JSNum.posInf ∧
      (App.evaluate i).effectiveGrossTp = JSNum.posInf) := by
  rw [App.evaluate_of_valid i h]
  have hrd : App.rateDecimal i = i.tpRate / 100 := rfl
  constructor
  · intro hgt
    simp only at hgt ⊢
    have hreach : App.rateReachable i = true := by
      rw [App.rateReachable, hrd]; exact hgt
    refine ⟨?_, ?_, ?_, ?_⟩
    · rw [App.targetAmount, if_pos hm, if_pos hreach, hrd]
    · rw [App.targetUnits, if_pos hm, if_pos hreach]
    · rw [App.effectiveGrossTp, if_pos hm, if_pos hreach, hrd]
    · intro t hta ht
      by_cases hp : i.p = 0
      · exfalso
        apply ht
        have hcmr := App.cmr_of_p_zero i h hp
        rw [App.targetAmount, if_pos hm, if_pos hreach, hcmr] at hta
        simpa using hta.symm
      · have hr : i.tpRate / 100 < (i.p - i.vc) / i.p := by
          rw [App.cmr_of_p_ne_zero i hp] at hgt
          simpa [hrd] using hgt
        obtain ⟨-, hta2, hgtp⟩ :=
          App.target_rate_reachable i hm hp (by rw [hrd]; exact hr)
        rw [hta2] at hta
        have htt : i.fc / ((i.p - i.vc) / i.p - App.rateDecimal i) = t :=
          JSNum.fin.inj hta
        rw [hta2, hgtp, htt, hrd, JSNum.div_fin_fin _ _ ht,
          mul_comm, mul_div_assoc, div_self ht, mul_one]
  · intro hle
    simp only at hle ⊢
    by_cases hp : i.p = 0
    · exfalso
      rw [App.cmr_of_p_zero i h hp] at hle
      simp [JSNum.le] at hle
    · have hr : (i.p - i.vc) / i.p ≤ i.tpRate / 100 := by
        rw [App.cmr_of_p_ne_zero i hp] at hle
        simpa using hle
      obtain ⟨h1, h2, h3⟩ :=
        App.target_rate_unreachable i hm hp (by rw [hrd]; exact hr)
      exact ⟨h2, h1, h3⟩

/-- Witness for C2 at the default snapshot in rate mode (`tpRate = 20`,
`cmr = 2/3`, reachable). -/
theorem claim_C2_witness :
    (((App.evaluate rateInputs).cmr.gt (JSNum.fin (rateInputs.tpRate / 100)) = true) →
      (App.evaluate rateInputs).targetAmount
          = (JSNum.fin rateInputs.fc).div
              ((App.evaluate rateInputs).cmr.sub (JSNum.fin (rateInputs.tpRate / 100))) ∧
      (App.evaluate rateInputs).targetUnits
          = (App.evaluate rateInputs).targetAmount.div (JSNum.fin rateInputs.p) ∧
      (App.evaluate rateInputs).effectiveGrossTp
          = (App.evaluate rateInputs).targetAmount.mul (JSNum.fin (rateInputs.tpRate / 100)) ∧
      (∀ t : ℚ, (App.evaluate rateInputs).targetAmount = JSNum.fin t → t ≠ 0 →
        (App.evaluate rateInputs).effectiveGrossTp.div ((App.evaluate rateInputs).targetAmount)
          = JSNum.fin (rateInputs.tpRate / 100))) ∧
    (((App.evaluate rateInputs).cmr.le (JSNum.fin (rateInputs.tpRate / 100)) = true) →
      (App.evaluate rateInputs).targetAmount = JSNum.posInf ∧
      (App.evaluate rateInputs).targetUnits = JSNum.posInf ∧
      (App.evaluate rateInputs).effectiveGrossTp = JSNum.posInf) :=
  claim_C2 rateInputs (by decide) (by decide)

/-- **C3.**  In amount mode (with `p > vc`), `targetUnits = (fc + tp) / cm`
(an exact finite value, so `targetUnits * cm = fc + tp`),
`targetAmount = (fc + tp) / cmr` (JavaScript division), and
`effectiveGrossTp = tp` exactly. -/
theorem claim_C3 (i : FinancialInputs) (hm : i.tpMode = TpMode.amount)
    (h : i.vc < i.p) :
    (App.evaluate i).effectiveGrossTp = JSNum.fin i.tp ∧
    (App.evaluate i).targetUnits = JSNum.fin ((i.fc + i.tp) / (i.p - i.vc)) ∧
    (App.evaluate i).targetAmount
        = (JSNum.fin (i.fc + i.tp)).div ((App.evaluate i).cmr) ∧
    ((App.evaluate i).targetUnits).mul ((App.evaluate i).cm)
        = JSNum.fin (i.fc + i.tp) := by
  rw [App.evaluate_of_valid i h]
  simp only
  have hmode : ¬ i.tpMode = TpMode.rate := by rw [hm]; intro hx; cases hx
  have hcm : i.p - i.vc ≠ 0 := sub_ne_zero.mpr (ne_of_gt h)
  have hu : App.targetUnits i = JSNum.fin ((i.fc + i.tp) / (i.p - i.vc)) := by
    rw [App.targetUnits, if_neg hmode, App.cm, JSNum.div_fin_fin _ _ hcm]
  refine ⟨?_, hu, ?_, ?_⟩
  · rw [App.effectiveGrossTp, if_neg hmode]
  · rw [App.targetAmount, if_neg hmode]
  · rw [hu, App.cm, JSNum.mul_fin_fin, div_mul_cancel₀ _ hcm]

/-- Witness for C3 at the default snapshot (amount mode, `tp = 1000000`). -/
theorem claim_C3_witness :
    (App.evaluate DEFAULT_INPUTS).effectiveGrossTp = JSNum.fin DEFAULT_INPUTS.tp ∧
    (App.evaluate DEFAULT_INPUTS).targetUnits
        = JSNum.fin ((DEFAULT_INPUTS.fc + DEFAULT_INPUTS.tp) / (DEFAULT_INPUTS.p - DEFAULT_INPUTS.vc)) ∧
    (App.evaluate DEFAULT_INPUTS).targetAmount
        = (JSNum.fin (DEFAULT_INPUTS.fc + DEFAULT_INPUTS.tp)).div ((App.evaluate DEFAULT_INPUTS).cmr) ∧
    ((App.evaluate DEFAULT_INPUTS).targetUnits).mul ((App.evaluate DEFAULT_INPUTS).cm)
        = JSNum.fin (DEFAULT_INPUTS.fc + DEFAULT_INPUTS.tp) :=
  claim_C3 DEFAULT_INPUTS (by decide) (by decide)

/-- **C4.**  For `p > vc` (with `vc ≥ 0`, per the §3 ranges of the input
type), the break-even figures satisfy `bepUnits * cm = fc`,
`bepAmount * cmr = fc`, `bepNetUnits * cm = fc + salesExpenses` and
`bepNetAmount * cmr = fc + salesExpenses`, where `cm = p - vc` and
`cmr = cm / p`. -/
theorem claim_C4 (i : FinancialInputs) (h : i.vc < i.p) (hvc : 0 ≤ i.vc) :
    (App.evaluate i).cm = JSNum.fin (i.p - i.vc) ∧
    (App.evaluate i).cmr = JSNum.fin ((i.p - i.vc) / i.p) ∧
    ((App.evaluate i).bepUnits).mul ((App.evaluate i).cm) = JSNum.fin i.fc ∧
    ((App.evaluate i).bepAmount).mul ((App.evaluate i).cmr) = JSNum.fin i.fc ∧
    ((App.evaluate i).bepNetUnits).mul ((App.evaluate i).cm)
        = JSNum.fin (i.fc + i.salesExpenses) ∧
    ((App.evaluate i).bepNetAmount).mul ((App.evaluate i).cmr)
        = JSNum.fin (i.fc + i.salesExpenses) := by
  have hp : i.p ≠ 0 := ne_of_gt (lt_of_le_of_lt hvc h)
  have hcm : i.p - i.vc ≠ 0 := sub_ne_zero.mpr (ne_of_gt h)
  have hcmr : (i.p - i.vc) / i.p ≠ 0 := div_ne_zero hcm hp
  rw [App.evaluate_of_valid i h]
  simp only
  have hc : App.cmr i = JSNum.fin ((i.p - i.vc) / i.p) := App.cmr_of_p_ne_zero i hp
  refine ⟨rfl, hc, ?_, ?_, ?_, ?_⟩
  · rw [App.bepUnits, App.cm, JSNum.div_fin_fin _ _ hcm, JSNum.mul_fin_fin,
      div_mul_cancel₀ _ hcm]
  · rw [App.bepAmount, hc, JSNum.div_fin_fin _ _ hcmr, JSNum.mul_fin_fin,
      div_mul_cancel₀ _ hcmr]
  · rw [App.bepNetUnits, App.totalFixedCosts, App.cm, JSNum.div_fin_fin _ _ hcm,
      JSNum.mul_fin_fin, div_mul_cancel₀ _ hcm]
  · rw [App.bepNetAmount, App.totalFixedCosts, hc, JSNum.div_fin_fin _ _ hcmr,
      JSNum.mul_fin_fin, div_mul_cancel₀ _ hcmr]

/-- Witness for C4 at the default snapshot. -/
theorem claim_C4_witness :
    (App.evaluate DEFAULT_INPUTS).cm = JSNum.fin (DEFAULT_INPUTS.p - DEFAULT_INPUTS.vc) ∧
    (App.evaluate DEFAULT_INPUTS).cmr
        = JSNum.fin ((DEFAULT_INPUTS.p - DEFAULT_INPUTS.vc) / DEFAULT_INPUTS.p) ∧
    ((App.evaluate DEFAULT_INPUTS).bepUnits).mul ((App.evaluate DEFAULT_INPUTS).cm)
        = JSNum.fin DEFAULT_INPUTS.fc ∧
    ((App.evaluate DEFAULT_INPUTS).bepAmount).mul ((App.evaluate DEFAULT_INPUTS).cmr)
        = JSNum.fin DEFAULT_INPUTS.fc ∧
    ((App.evaluate DEFAULT_INPUTS).bepNetUnits).mul ((App.evaluate DEFAULT_INPUTS).cm)
        = JSNum.fin (DEFAULT_INPUTS.fc + DEFAULT_INPUTS.salesExpenses) ∧
    ((App.evaluate DEFAULT_INPUTS).bepNetAmount).mul ((App.evaluate DEFAULT_INPUTS).cmr)
        = JSNum.fin (DEFAULT_INPUTS.fc + DEFAULT_INPUTS.salesExpenses) :=
  claim_C4 DEFAULT_INPUTS (by decide) (by decide)

/-! ## Safety-margin lemmas -/

namespace App

theorem safetyMargin_of_fin_pos (i : FinancialInputs) (t : ℚ)
    (hta : targetAmount i = JSNum.fin t) (ht : 0 < t) :
    safetyMargin i = ((JSNum.fin t).sub (bepAmount i)).div (JSNum.fin t) := by
  rw [safetyMargin, if_pos, hta]
  constructor
  · rw [hta]; simpa using ht
  · rw [hta]; intro hx; cases hx

theorem safetyMargin_of_not_pos (i : FinancialInputs)
    (h : ¬ ((targetAmount i).gt (JSNum.fin 0) = true ∧ targetAmount i ≠ JSNum.posInf)) :
    safetyMargin i = JSNum.fin 0 := by
  rw [safetyMargin, if_neg h]

/-- In the valid case, `targetAmount` is never NaN or `-∞`: it is either
`+∞` or a finite value. -/
theorem targetAmount_cases (i : FinancialInputs) (h : i.vc < i.p) :
    targetAmount i = JSNum.posInf ∨ ∃ t : ℚ, targetAmount i = JSNum.fin t := by
  by_cases hp : i.p = 0
  · by_cases hm : i.tpMode = TpMode.rate
    · by_cases hre : rateReachable i = true
      · right
        refine ⟨0, ?_⟩
        rw [targetAmount, if_pos hm, if_pos hre, cmr_of_p_zero i h hp]
        simp
      · left
        rw [targetAmount, if_pos hm, if_neg hre]
    · right
      refine ⟨0, ?_⟩
      rw [targetAmount, if_neg hm, cmr_of_p_zero i h hp]
      simp
  · have hc : (i.p - i.vc) / i.p ≠ 0 :=
      div_ne_zero (sub_ne_zero.mpr (ne_of_gt h)) hp
    by_cases hm : i.tpMode = TpMode.rate
    · by_cases hre : rateReachable i = true
      · right
        have hrate : rateDecimal i < (i.p - i.vc) / i.p := by
          rw [rateReachable, cmr_of_p_ne_zero i hp] at hre
          simpa using hre
        exact ⟨_, (target_rate_reachable i hm hp hrate).2.1⟩
      · left
        rw [targetAmount, if_pos hm, if_neg hre]
    · right
      refine ⟨(i.fc + i.tp) / ((i.p - i.vc) / i.p), ?_⟩
      rw [targetAmount, if_neg hm, cmr_of_p_ne_zero i hp, JSNum.div_fin_fin _ _ hc]

end App

/-- The rational identity behind the rate-mode safety margin:
`(a/(c-r) - a/c) / (a/(c-r)) = r/c`. -/
theorem div_sub_div_self_div (a c r : ℚ) (ha : a ≠ 0) (hc : c ≠ 0)
    (hcr : c - r ≠ 0) : (a / (c - r) - a / c) / (a / (c - r)) = r / c := by
  field_simp
  ring

/-- **C10.**  In reachable rate mode (`p > vc`, `fc > 0`, `cmr > tpRate/100`),
the safety margin equals `(tpRate/100) / cmr` (JavaScript division): it
depends only on the requested rate and the contribution margin ratio. -/
theorem claim_C10 (i : FinancialInputs) (h : i.vc < i.p) (hfc : 0 < i.fc)
    (hm : i.tpMode = TpMode.rate)
    (hr : ((App.evaluate i).cmr).gt (JSNum.fin (i.tpRate / 100)) = true) :
    (App.evaluate i).safetyMargin
      = (JSNum.fin (i.tpRate / 100)).div ((App.evaluate i).cmr) := by
  rw [App.evaluate_of_valid i h] at hr ⊢
  simp only at hr ⊢
  have hreach : App.rateReachable i = true := hr
  by_cases hp : i.p = 0
  · have hcmr := App.cmr_of_p_zero i h hp
    have hta : App.targetAmount i = JSNum.fin 0 := by
      rw [App.targetAmount, if_pos hm, if_pos hreach, hcmr]
      simp
    rw [App.safetyMargin_of_not_pos i (by rw [hta]; simp), hcmr]
    simp
  · have hcmr := App.cmr_of_p_ne_zero i hp
    have hcne : (i.p - i.vc) / i.p ≠ 0 :=
      div_ne_zero (sub_ne_zero.mpr (ne_of_gt h)) hp
    have hrate : App.rateDecimal i < (i.p - i.vc) / i.p := by
      rw [hcmr] at hr
      simpa [JSNum.gt] using hr
    have hsub : (0:ℚ) < (i.p - i.vc) / i.p - App.rateDecimal i := sub_pos.mpr hrate
    obtain ⟨-, hta, -⟩ := App.target_rate_reachable i hm hp hrate
    have ht : 0 < i.fc / ((i.p - i.vc) / i.p - App.rateDecimal i) :=
      div_pos hfc hsub
    have hsub2 : (i.p - i.vc) / i.p - i.tpRate / 100 ≠ 0 := by
      simpa [App.rateDecimal] using hsub.ne'
    rw [App.safetyMargin_of_fin_pos i _ hta ht, App.bepAmount, hcmr,
      JSNum.div_fin_fin _ _ hcne, JSNum.sub_fin_fin,
      JSNum.div_fin_fin _ _ (ne_of_gt ht),
      JSNum.div_fin_fin _ _ hcne]
    congr 1
    simp only [App.rateDecimal]
    exact div_sub_div_self_div _ _ _ hfc.ne' hcne hsub2

/-- Witness for C10 at the default snapshot in rate mode (`tpRate = 20`,
`cmr = 2/3`): `safetyMargin = 0.2 / (2/3) = 0.3`. -/
theorem claim_C10_witness :
    (App.evaluate rateInputs).safetyMargin
      = (JSNum.fin (rateInputs.tpRate / 100)).div ((App.evaluate rateInputs).cmr) :=
  claim_C10 rateInputs (by decide) (by decide) (by decide) (by
    rw [App.evaluate_of_valid rateInputs (by decide)]
    norm_num +decide [App.cmr, App.cm, rateInputs, DEFAULT_INPUTS,
      JSNum.div, JSNum.gt, JSNum.lt])

/-- A §3-conformant snapshot with `fc = 0` on which the safety margin is
exactly `1`, refuting the claimed strict bound `safetyMargin < 1`. -/
def cex5 : FinancialInputs :=
  { DEFAULT_INPUTS with fc := 0, p := 2, vc := 1, tp := 100, salesExpenses := 0 }

/-- **C5, counterexample.**  At `fc = 0, p = 2, vc = 1, tpMode = amount,
tp = 100` (all §3 ranges hold and `p > vc`), `targetAmount = 200` is finite
and positive but `safetyMargin = 1`, not `< 1` as the claim states. -/
theorem claim_C5_counterexample :
    (0:ℚ) ≤ cex5.fc ∧ (0:ℚ) ≤ cex5.p ∧ (0:ℚ) ≤ cex5.vc ∧
    (0:ℚ) ≤ cex5.salesExpenses ∧ cex5.vc < cex5.p ∧
    (App.evaluate cex5).isValid = true ∧
    (App.evaluate cex5).targetAmount = JSNum.fin 200 ∧ ((0:ℚ) < 200) ∧
    (App.evaluate cex5).safetyMargin = JSNum.fin 1 ∧ ¬ ((1:ℚ) < 1) := by
  have hval := App.evaluate_of_valid cex5 (by decide)
  refine ⟨by decide, by decide, by decide, by decide, by decide, ?_, ?_, by norm_num, ?_, by norm_num⟩
  · rw [hval]
  · rw [hval]
    norm_num +decide [App.targetAmount, App.cmr, App.cm, App.rateReachable,
      App.rateDecimal, cex5, DEFAULT_INPUTS, JSNum.div, JSNum.gt, JSNum.lt]
  · rw [hval]
    norm_num +decide [App.safetyMargin, App.targetAmount, App.bepAmount,
      App.cmr, App.cm, App.rateReachable, App.rateDecimal, cex5, DEFAULT_INPUTS,
      JSNum.div, JSNum.gt, JSNum.lt, JSNum.sub, JSNum.add, JSNum.neg]

/-- **C5, amended.**  Under the §3 ranges with `p > vc`: whenever
`targetAmount` is finite and positive,
`safetyMargin = (targetAmount - bepAmount) / targetAmount`, a finite value
`s ≤ 1`, with `s < 1` whenever `fc > 0` (equality `s = 1` occurs exactly at
`fc = 0`); in every other case `safetyMargin = 0`. -/
theorem claim_C5 (i : FinancialInputs) (hfc : 0 ≤ i.fc) (hp0 : 0 ≤ i.p)
    (hvc : 0 ≤ i.vc) (hse : 0 ≤ i.salesExpenses) (h : i.vc < i.p) :
    (∀ t : ℚ, (App.evaluate i).targetAmount = JSNum.fin t → 0 < t →
      (App.evaluate i).safetyMargin
          = (((App.evaluate i).targetAmount).sub ((App.evaluate i).bepAmount)).div
              ((App.evaluate i).targetAmount) ∧
      ∃ s : ℚ, (App.evaluate i).safetyMargin = JSNum.fin s ∧ s ≤ 1 ∧
        (0 < i.fc → s < 1)) ∧
    ((¬ ∃ t : ℚ, (App.evaluate i).targetAmount = JSNum.fin t ∧ 0 < t) →
      (App.evaluate i).safetyMargin = JSNum.fin 0) := by
  have hp : (0:ℚ) < i.p := lt_of_le_of_lt hvc h
  have hpne : i.p ≠ 0 := hp.ne'
  have hc : 0 < (i.p - i.vc) / i.p := App.cmr_ratio_pos i h hvc
  have hbep : App.bepAmount i = JSNum.fin (i.fc / ((i.p - i.vc) / i.p)) := by
    rw [App.bepAmount, App.cmr_of_p_ne_zero i hpne, JSNum.div_fin_fin _ _ hc.ne']
  rw [App.evaluate_of_valid i h]
  simp only
  constructor
  · intro t hta ht
    have hsm := App.safetyMargin_of_fin_pos i t hta ht
    constructor
    · rw [hsm, hta]
    · rw [hsm, hbep, JSNum.sub_fin_fin, JSNum.div_fin_fin _ _ ht.ne']
      refine ⟨(t - i.fc / ((i.p - i.vc) / i.p)) / t, rfl, ?_, ?_⟩
      · have hb : 0 ≤ i.fc / ((i.p - i.vc) / i.p) := div_nonneg hfc hc.le
        rw [div_le_one ht]
        linarith
      · intro hfcpos
        have hb : 0 < i.fc / ((i.p - i.vc) / i.p) := div_pos hfcpos hc
        rw [div_lt_one ht]
        linarith
  · intro hne
    apply App.safetyMargin_of_not_pos
    rintro ⟨hgt, hinf⟩
    rcases App.targetAmount_cases i h with hcase | ⟨t, hcase⟩
    · exact hinf hcase
    · rw [hcase] at hgt
      simp only [JSNum.gt, JSNum.lt_fin_fin, decide_eq_true_eq] at hgt
      exact hne ⟨t, hcase, hgt⟩

/-- Witness for C5 (amended) at the default snapshot:
`targetAmount = 4.5e6 > 0` and `safetyMargin = 1/3 < 1`. -/
theorem claim_C5_witness :
    (∀ t : ℚ, (App.evaluate DEFAULT_INPUTS).targetAmount = JSNum.fin t → 0 < t →
      (App.evaluate DEFAULT_INPUTS).safetyMargin
          = (((App.evaluate DEFAULT_INPUTS).targetAmount).sub
              ((App.evaluate DEFAULT_INPUTS).bepAmount)).div
              ((App.evaluate DEFAULT_INPUTS).targetAmount) ∧
      ∃ s : ℚ, (App.evaluate DEFAULT_INPUTS).safetyMargin = JSNum.fin s ∧ s ≤ 1 ∧
        (0 < DEFAULT_INPUTS.fc → s < 1)) ∧
    ((¬ ∃ t : ℚ, (App.evaluate DEFAULT_INPUTS).targetAmount = JSNum.fin t ∧ 0 < t) →
      (App.evaluate DEFAULT_INPUTS).safetyMargin = JSNum.fin 0) :=
  claim_C5 DEFAULT_INPUTS (by decide) (by decide) (by decide) (by decide) (by decide)

/-! ## Weighted-average lemmas -/

theorem foldl_add_map {α : Type} (f : α → ℚ) (l : List α) (a : ℚ) :
    l.foldl (fun acc x => acc + f x) a = a + (l.map f).sum := by
  induction l generalizing a with
  | nil => simp
  | cons x xs ih => simp [ih, add_assoc]

theorem sum_map_div {α : Type} (l : List α) (g : α → ℚ) (T : ℚ) :
    (l.map (fun x => g x / T)).sum = (l.map g).sum / T := by
  induction l with
  | nil => simp
  | cons x xs ih => simp [ih, add_div]

namespace InputForm

theorem totalMix_eq_sum (details : List ProductItem) :
    totalMix details = (details.map (fun it => it.mix)).sum := by
  simpa using foldl_add_map (fun it : ProductItem => it.mix) details 0

theorem weightedP_eq_sum (details : List ProductItem) :
    weightedP details
      = (details.map (fun it => it.p * it.mix)).sum / totalMix details := by
  rw [weightedP,
    foldl_add_map (fun it : ProductItem => it.p * (it.mix / totalMix details)) details 0,
    zero_add]
  have hfun : (fun it : ProductItem => it.p * (it.mix / totalMix details))
      = fun it : ProductItem => (it.p * it.mix) / totalMix details := by
    funext it
    rw [mul_div_assoc]
  rw [hfun, sum_map_div]

theorem weightedVC_eq_sum (details : List ProductItem) :
    weightedVC details
      = (details.map (fun it => it.vc * it.mix)).sum / totalMix details := by
  rw [weightedVC,
    foldl_add_map (fun it : ProductItem => it.vc * (it.mix / totalMix details)) details 0,
    zero_add]
  have hfun : (fun it : ProductItem => it.vc * (it.mix / totalMix details))
      = fun it : ProductItem => (it.vc * it.mix) / totalMix details := by
    funext it
    rw [mul_div_assoc]
  rw [hfun, sum_map_div]

end InputForm

/-- **C7, counterexample.**  On Scenario D's three-product list (the default
`productDetails`), `recalculateWeightedAvg` stores `p = 15700`
(`= (8000*40 + 18000*50 + 35000*10) / 100`), not `16600` as claimed: the
spec's Scenario D arithmetic is wrong, its own formula gives `15700`. -/
theorem claim_C7_counterexample :
    (InputForm.recalculateWeightedAvg DEFAULT_INPUTS.productDetails).p
        = some 15700 ∧ ((15700 : ℚ) ≠ 16600) := by
  constructor
  · rw [InputForm.recalculateWeightedAvg,
      if_neg (by norm_num [InputForm.totalMix, DEFAULT_INPUTS]),
      InputForm.weightedP_eq_sum]
    norm_num [InputForm.totalMix, InputForm.round2, DEFAULT_INPUTS]
  · norm_num

/-- **C7, amended.**  `recalculateWeightedAvg` stores
`p = round2(Σ(p_i·mix_i) / Σ mix_i)` and `vc = round2(Σ(vc_i·mix_i) / Σ mix_i)`
(2-decimal rounding) and keeps the detail list; a zero total mix stores
`p = vc = 0`.  Scenario D's list yields `p = 15700` and `vc = 5000`. -/
theorem claim_C7 (details : List ProductItem) :
    (InputForm.totalMix details = 0 →
        InputForm.recalculateWeightedAvg details
          = { productDetails := some details, p := some 0, vc := some 0 }) ∧
    (InputForm.totalMix details ≠ 0 →
        (InputForm.recalculateWeightedAvg details).p
            = some (InputForm.round2
                ((details.map (fun it => it.p * it.mix)).sum / InputForm.totalMix details)) ∧
        (InputForm.recalculateWeightedAvg details).vc
            = some (InputForm.round2
                ((details.map (fun it => it.vc * it.mix)).sum / InputForm.totalMix details)) ∧
        (InputForm.recalculateWeightedAvg details).productDetails = some details) ∧
    ((InputForm.recalculateWeightedAvg DEFAULT_INPUTS.productDetails).p = some 15700 ∧
      (InputForm.recalculateWeightedAvg DEFAULT_INPUTS.productDetails).vc = some 5000) := by
  refine ⟨?_, ?_, ?_, ?_⟩
  · intro h
    rw [InputForm.recalculateWeightedAvg, if_pos h]
  · intro h
    rw [InputForm.recalculateWeightedAvg, if_neg h,
      InputForm.weightedP_eq_sum, InputForm.weightedVC_eq_sum]
    exact ⟨rfl, rfl, rfl⟩
  · rw [InputForm.recalculateWeightedAvg,
      if_neg (by norm_num [InputForm.totalMix, DEFAULT_INPUTS]),
      InputForm.weightedP_eq_sum]
    norm_num [InputForm.totalMix, InputForm.round2, DEFAULT_INPUTS]
  · rw [InputForm.recalculateWeightedAvg,
      if_neg (by norm_num [InputForm.totalMix, DEFAULT_INPUTS]),
      InputForm.weightedVC_eq_sum]
    norm_num [InputForm.totalMix, InputForm.round2, DEFAULT_INPUTS]

/-- Witness for C7 (amended): the empty list collapses to zeros, and
Scenario D's list stores the rounded weighted average. -/
theorem claim_C7_witness :
    (InputForm.recalculateWeightedAvg ([] : List ProductItem)
        = { productDetails := some ([] : List ProductItem), p := some 0, vc := some 0 }) ∧
    ((InputForm.recalculateWeightedAvg DEFAULT_INPUTS.productDetails).p
        = some (InputForm.round2
            ((DEFAULT_INPUTS.productDetails.map (fun it => it.p * it.mix)).sum
              / InputForm.totalMix DEFAULT_INPUTS.productDetails))) :=
  ⟨(claim_C7 []).1 rfl,
   (((claim_C7 DEFAULT_INPUTS.productDetails).2.1
      (by norm_num [InputForm.totalMix, DEFAULT_INPUTS]))).1⟩

/-! ## Edit-handler lemmas -/

/-- Number of fields present in a partial update. -/
def PartialInputs.someCount (u : PartialInputs) : Nat :=
  (if u.fc.isSome then 1 else 0) + (if u.p.isSome then 1 else 0) +
  (if u.vc.isSome then 1 else 0) + (if u.tp.isSome then 1 else 0) +
  (if u.tpMode.isSome then 1 else 0) + (if u.tpRate.isSome then 1 else 0) +
  (if u.salesExpenses.isSome then 1 else 0) +
  (if u.targetNetProfit.isSome then 1 else 0) +
  (if u.fcMode.isSome then 1 else 0) + (if u.fcDetails.isSome then 1 else 0) +
  (if u.productMode.isSome then 1 else 0) +
  (if u.productDetails.isSome then 1 else 0)

namespace App

theorem handleInputChange_tpMode (prev : FinancialInputs) (u : PartialInputs) :
    (handleInputChange prev u).tpMode = (merge prev u).tpMode := by
  rw [handleInputChange]
  split_ifs <;> rfl

theorem handleInputChange_fc (prev : FinancialInputs) (u : PartialInputs) :
    (handleInputChange prev u).fc = (merge prev u).fc := by
  rw [handleInputChange]
  split_ifs <;> rfl

theorem handleInputChange_fcDetails (prev : FinancialInputs) (u : PartialInputs) :
    (handleInputChange prev u).fcDetails = (merge prev u).fcDetails := by
  rw [handleInputChange]
  split_ifs <;> rfl

theorem handleInputChange_fcMode (prev : FinancialInputs) (u : PartialInputs) :
    (handleInputChange prev u).fcMode = (merge prev u).fcMode := by
  rw [handleInputChange]
  split_ifs <;> rfl

end App

/-- **C8.**  For every prior state and single-field edit through
`handleInputChange` whose resulting state is in amount mode: an edit of `tp`
or `salesExpenses` recomputes `targetNetProfit = tp - salesExpenses`; an edit
of `targetNetProfit` recomputes `tp = targetNetProfit + salesExpenses`, so
`targetNetProfit = tp - salesExpenses` holds after the edit in either case. -/
theorem claim_C8 (prev : FinancialInputs) (u : PartialInputs)
    (hsingle : u.someCount = 1)
    (hmode : (App.handleInputChange prev u).tpMode = TpMode.amount) :
    ((u.tp.isSome ∨ u.salesExpenses.isSome) →
        (App.handleInputChange prev u).targetNetProfit
          = (App.handleInputChange prev u).tp
              - (App.handleInputChange prev u).salesExpenses) ∧
    ((u.targetNetProfit.isSome ∧ ¬ u.tp.isSome ∧ ¬ u.salesExpenses.isSome) →
        (App.handleInputChange prev u).tp
          = (App.handleInputChange prev u).targetNetProfit
              + (App.handleInputChange prev u).salesExpenses ∧
        (App.handleInputChange prev u).targetNetProfit
          = (App.handleInputChange prev u).tp
              - (App.handleInputChange prev u).salesExpenses) := by
  have hm : (App.merge prev u).tpMode = TpMode.amount := by
    rw [← App.handleInputChange_tpMode prev u]
    exact hmode
  constructor
  · intro hts
    have hb : (u.tp.isSome || u.salesExpenses.isSome) = true := by
      rcases hts with h | h <;> simp [h]
    have hres : App.handleInputChange prev u
        = { App.merge prev u with
            targetNetProfit := (App.merge prev u).tp - (App.merge prev u).salesExpenses } := by
      rw [App.handleInputChange]
      simp only [hm, if_pos rfl, hb, if_true]
    rw [hres]
  · rintro ⟨htnp, htp, hse⟩
    have hb : (u.tp.isSome || u.salesExpenses.isSome) = false := by
      simp [htp, hse]
    have hres : App.handleInputChange prev u
        = { App.merge prev u with
            tp := (App.merge prev u).targetNetProfit + (App.merge prev u).salesExpenses } := by
      rw [App.handleInputChange]
      simp only [hm, if_pos rfl, hb, if_false, htnp, if_true, Bool.false_eq_true]
    rw [hres]
    constructor
    · rfl
    · simp

/-- Witness for C8: editing `tp` alone on the default snapshot (amount mode)
recomputes `targetNetProfit` to the new `tp` minus `salesExpenses`. -/
theorem claim_C8_witness :
    ((({ tp := some 1200000 } : PartialInputs).tp.isSome ∨
        ({ tp := some 1200000 } : PartialInputs).salesExpenses.isSome) →
        (App.handleInputChange DEFAULT_INPUTS { tp := some 1200000 }).targetNetProfit
          = (App.handleInputChange DEFAULT_INPUTS { tp := some 1200000 }).tp
              - (App.handleInputChange DEFAULT_INPUTS { tp := some 1200000 }).salesExpenses) ∧
    ((({ tp := some 1200000 } : PartialInputs).targetNetProfit.isSome ∧
        ¬ ({ tp := some 1200000 } : PartialInputs).tp.isSome ∧
        ¬ ({ tp := some 1200000 } : PartialInputs).salesExpenses.isSome) →
        (App.handleInputChange DEFAULT_INPUTS { tp := some 1200000 }).tp
          = (App.handleInputChange DEFAULT_INPUTS { tp := some 1200000 }).targetNetProfit
              + (App.handleInputChange DEFAULT_INPUTS { tp := some 1200000 }).salesExpenses ∧
        (App.handleInputChange DEFAULT_INPUTS { tp := some 1200000 }).targetNetProfit
          = (App.handleInputChange DEFAULT_INPUTS { tp := some 1200000 }).tp
              - (App.handleInputChange DEFAULT_INPUTS { tp := some 1200000 }).salesExpenses) :=
  claim_C8 DEFAULT_INPUTS { tp := some 1200000 } (by decide) (by decide)

namespace InputForm

theorem fcSum_eq_sum (details : List FCItem) :
    fcSum details = (details.map (fun it => it.amount)).sum := by
  simpa using foldl_add_map (fun it : FCItem => it.amount) details 0

theorem fcSum_append_zero (details : List FCItem) (newId : String) :
    fcSum (details ++ [{ id := newId, name := "新费用项", amount := 0 }])
      = fcSum details := by
  simp [fcSum_eq_sum]

end InputForm

/-- **C9.**  The fixed-cost helpers keep `fc = Σ amount_i`:
`updateFCItem` / `removeFCItem` always emit `fc` equal to the new detail sum;
`addFCItem` (appending a zero-amount item) preserves the equality when it
held before; switching simple → detailed seeds `fc` with the current detail
sum; switching detailed → simple leaves `fc` (and the list) unchanged. -/
theorem claim_C9 (i : FinancialInputs) (id newId : String)
    (value : InputForm.FCFieldUpdate) :
    ((App.handleInputChange i (InputForm.updateFCItem i id value)).fc
        = InputForm.fcSum
            ((App.handleInputChange i (InputForm.updateFCItem i id value)).fcDetails)) ∧
    ((App.handleInputChange i (InputForm.removeFCItem i id)).fc
        = InputForm.fcSum
            ((App.handleInputChange i (InputForm.removeFCItem i id)).fcDetails)) ∧
    (i.fc = InputForm.fcSum i.fcDetails →
        (App.handleInputChange i (InputForm.addFCItem i newId)).fc
          = InputForm.fcSum
              ((App.handleInputChange i (InputForm.addFCItem i newId)).fcDetails)) ∧
    (i.fcMode = DetailMode.simple →
        (App.handleInputChange i (InputForm.toggleFCMode i)).fc
            = InputForm.fcSum i.fcDetails ∧
        (App.handleInputChange i (InputForm.toggleFCMode i)).fcMode
            = DetailMode.detailed) ∧
    (i.fcMode = DetailMode.detailed →
        (App.handleInputChange i (InputForm.toggleFCMode i)).fc = i.fc ∧
        (App.handleInputChange i (InputForm.toggleFCMode i)).fcDetails = i.fcDetails ∧
        (App.handleInputChange i (InputForm.toggleFCMode i)).fcMode
            = DetailMode.simple) := by
  refine ⟨?_, ?_, ?_, ?_, ?_⟩
  · rw [App.handleInputChange_fc, App.handleInputChange_fcDetails]
    simp [InputForm.updateFCItem, App.merge]
  · rw [App.handleInputChange_fc, App.handleInputChange_fcDetails]
    simp [InputForm.removeFCItem, App.merge]
  · intro h
    rw [App.handleInputChange_fc, App.handleInputChange_fcDetails]
    simp [InputForm.addFCItem, App.merge, InputForm.fcSum_append_zero, h]
  · intro h
    rw [InputForm.toggleFCMode, if_pos h]
    constructor
    · rw [App.handleInputChange_fc]
      simp [App.merge]
    · rw [App.handleInputChange_fcMode]
      simp [App.merge]
  · intro h
    have hns : ¬ i.fcMode = DetailMode.simple := by
      rw [h]
      intro hx
      cases hx
    rw [InputForm.toggleFCMode, if_neg hns]
    refine ⟨?_, ?_, ?_⟩
    · rw [App.handleInputChange_fc]
      simp [App.merge]
    · rw [App.handleInputChange_fcDetails]
      simp [App.merge]
    · rw [App.handleInputChange_fcMode]
      simp [App.merge]

/-- A default snapshot already in detailed fixed-cost mode. -/
def detailedInputs : FinancialInputs :=
  { DEFAULT_INPUTS with fcMode := DetailMode.detailed }

/-- Witness for C9: an amount edit, a removal, an append and both toggle
directions at the default snapshot (whose detail sum is `2000000 = fc`). -/
theorem claim_C9_witness :
    ((App.handleInputChange DEFAULT_INPUTS
        (InputForm.updateFCItem DEFAULT_INPUTS "2" (InputForm.FCFieldUpdate.amount 500000))).fc
      = InputForm.fcSum
          ((App.handleInputChange DEFAULT_INPUTS
            (InputForm.updateFCItem DEFAULT_INPUTS "2" (InputForm.FCFieldUpdate.amount 500000))).fcDetails)) ∧
    ((App.handleInputChange DEFAULT_INPUTS (InputForm.addFCItem DEFAULT_INPUTS "99")).fc
      = InputForm.fcSum
          ((App.handleInputChange DEFAULT_INPUTS (InputForm.addFCItem DEFAULT_INPUTS "99")).fcDetails)) ∧
    ((App.handleInputChange DEFAULT_INPUTS (InputForm.toggleFCMode DEFAULT_INPUTS)).fc
        = InputForm.fcSum DEFAULT_INPUTS.fcDetails ∧
      (App.handleInputChange DEFAULT_INPUTS (InputForm.toggleFCMode DEFAULT_INPUTS)).fcMode
        = DetailMode.detailed) ∧
    ((App.handleInputChange detailedInputs (InputForm.toggleFCMode detailedInputs)).fc
        = detailedInputs.fc ∧
      (App.handleInputChange detailedInputs (InputForm.toggleFCMode detailedInputs)).fcDetails
        = detailedInputs.fcDetails ∧
      (App.handleInputChange detailedInputs (InputForm.toggleFCMode detailedInputs)).fcMode
        = DetailMode.simple) :=
  ⟨(claim_C9 DEFAULT_INPUTS "2" "99" (InputForm.FCFieldUpdate.amount 500000)).1,
   (claim_C9 DEFAULT_INPUTS "2" "99" (InputForm.FCFieldUpdate.amount 500000)).2.2.1
      (by norm_num [InputForm.fcSum, DEFAULT_INPUTS]),
   (claim_C9 DEFAULT_INPUTS "2" "99" (InputForm.FCFieldUpdate.amount 500000)).2.2.2.1 rfl,
   (claim_C9 detailedInputs "2" "99" (InputForm.FCFieldUpdate.amount 500000)).2.2.2.2 rfl⟩

/-! ## Output-shape predicates and lemmas for C6 -/

/-- The spec's admissible output values: `0`, a finite positive number, or
`+∞` (and so in particular never NaN, never negative). -/
def JSNum.zeroPosOrInf (x : JSNum) : Prop :=
  x = JSNum.posInf ∨ ∃ q : ℚ, x = JSNum.fin q ∧ 0 ≤ q

/-- A finite value (of any sign) or `+∞` — never NaN, never `-∞`. -/
def JSNum.finOrPosInf (x : JSNum) : Prop :=
  x = JSNum.posInf ∨ ∃ q : ℚ, x = JSNum.fin q

theorem JSNum.zeroPosOrInf_fin {q : ℚ} (h : 0 ≤ q) : JSNum.zeroPosOrInf (JSNum.fin q) :=
  Or.inr ⟨q, rfl, h⟩

namespace App

/-- Under the §3 ranges (with `tp ≥ 0`) and `p > vc`, the target trio is
either all `+∞` or all finite and nonnegative, with `targetAmount` at least
the gross break-even revenue. -/
theorem target_trichotomy (i : FinancialInputs) (h : i.vc < i.p)
    (hvc : 0 ≤ i.vc) (hfc : 0 ≤ i.fc) (htp : 0 ≤ i.tp) (hr0 : 0 ≤ i.tpRate) :
    (targetUnits i = JSNum.posInf ∧ targetAmount i = JSNum.posInf ∧
      effectiveGrossTp i = JSNum.posInf) ∨
    (∃ u a g : ℚ, targetUnits i = JSNum.fin u ∧ targetAmount i = JSNum.fin a ∧
      effectiveGrossTp i = JSNum.fin g ∧ 0 ≤ u ∧ 0 ≤ a ∧ 0 ≤ g ∧
      i.fc / ((i.p - i.vc) / i.p) ≤ a) := by
  have hp : (0:ℚ) < i.p := lt_of_le_of_lt hvc h
  have hpne : i.p ≠ 0 := hp.ne'
  have hcm : (0:ℚ) < i.p - i.vc := sub_pos.mpr h
  have hc : 0 < (i.p - i.vc) / i.p := div_pos hcm hp
  cases htm : i.tpMode with
  | amount =>
    right
    obtain ⟨hu, ha, hg⟩ := target_amount_mode i htm h hpne
    refine ⟨_, _, _, hu, ha, hg, ?_, ?_, htp, ?_⟩
    · exact div_nonneg (by linarith) hcm.le
    · exact div_nonneg (by linarith) hc.le
    · rw [add_div]
      have := div_nonneg htp hc.le
      linarith
  | rate =>
    by_cases hre : rateReachable i = true
    · right
      have hr : rateDecimal i < (i.p - i.vc) / i.p := by
        rw [rateReachable, cmr_of_p_ne_zero i hpne] at hre
        simpa using hre
      obtain ⟨hu, ha, hg⟩ := target_rate_reachable i htm hpne hr
      have hrd : 0 ≤ rateDecimal i := by
        rw [rateDecimal]
        positivity
      have hsub : 0 < (i.p - i.vc) / i.p - rateDecimal i := sub_pos.mpr hr
      have ha0 : 0 ≤ i.fc / ((i.p - i.vc) / i.p - rateDecimal i) :=
        div_nonneg hfc hsub.le
      refine ⟨_, _, _, hu, ha, hg, div_nonneg ha0 hp.le, ha0,
        mul_nonneg ha0 hrd, ?_⟩
      have hle : (i.p - i.vc) / i.p - rateDecimal i ≤ (i.p - i.vc) / i.p := by
        linarith
      exact div_le_div_of_nonneg_left hfc hsub hle |>.trans_eq rfl
    · left
      have hre2 : rateReachable i = false := by
        cases hx : rateReachable i
        · rfl
        · exact absurd hx hre
      refine ⟨?_, ?_, ?_⟩
      · rw [targetUnits, if_pos htm, hre2]
        simp
      · rw [targetAmount, if_pos htm, hre2]
        simp
      · rw [effectiveGrossTp, if_pos htm, hre2]
        simp

end App

/-- A §3-conformant snapshot (any `tp` is allowed by §3) with a negative
target profit, driving several result fields negative. -/
def cex6 : FinancialInputs := { DEFAULT_INPUTS with tp := -3000000 }

/-- **C6, counterexample.**  At the default snapshot with `tp = -3000000`
(all §3 ranges hold — §3 allows any `tp`), `effectiveGrossTp = -3000000`, a
finite negative number: not `0`, not positive, not `+∞`. -/
theorem claim_C6_counterexample :
    (0:ℚ) ≤ cex6.fc ∧ (0:ℚ) ≤ cex6.p ∧ (0:ℚ) ≤ cex6.vc ∧
    (0:ℚ) ≤ cex6.salesExpenses ∧ (0:ℚ) ≤ cex6.tpRate ∧ cex6.tpRate ≤ 100 ∧
    (App.evaluate cex6).effectiveGrossTp = JSNum.fin (-3000000) ∧
    ¬ JSNum.zeroPosOrInf ((App.evaluate cex6).effectiveGrossTp) := by
  have hg : (App.evaluate cex6).effectiveGrossTp = JSNum.fin (-3000000) := by
    rw [App.evaluate_of_valid cex6 (by decide)]
    simp only
    rw [App.effectiveGrossTp, if_neg (by decide)]
    rfl
  refine ⟨by decide, by decide, by decide, by decide, by decide, by decide, hg, ?_⟩
  rw [hg]
  rintro (hcon | ⟨q, hq, hq0⟩)
  · cases hcon
  · rw [JSNum.fin.injEq] at hq
    rw [← hq] at hq0
    norm_num at hq0

/-- **C6, amended.**  Under the §3 ranges together with `tp ≥ 0`, every
numeric result field except `effectiveNetTp` is `0`, a finite positive
number, or `+∞` (infinities propagate through `totalVC`,
`totalBusinessCost`, `totalAllCost`), and no field — `effectiveNetTp`
included — is ever NaN or `-∞`; `effectiveNetTp` itself is `+∞` or finite,
but may be negative (whenever `salesExpenses > effectiveGrossTp`). -/
theorem claim_C6 (i : FinancialInputs) (hfc : 0 ≤ i.fc) (hp0 : 0 ≤ i.p)
    (hvc : 0 ≤ i.vc) (hse : 0 ≤ i.salesExpenses) (hr0 : 0 ≤ i.tpRate)
    (hr1 : i.tpRate ≤ 100) (htp : 0 ≤ i.tp) :
    JSNum.zeroPosOrInf ((App.evaluate i).cm) ∧
    JSNum.zeroPosOrInf ((App.evaluate i).cmr) ∧
    JSNum.zeroPosOrInf ((App.evaluate i).bepUnits) ∧
    JSNum.zeroPosOrInf ((App.evaluate i).bepAmount) ∧
    JSNum.zeroPosOrInf ((App.evaluate i).bepNetUnits) ∧
    JSNum.zeroPosOrInf ((App.evaluate i).bepNetAmount) ∧
    JSNum.zeroPosOrInf ((App.evaluate i).targetUnits) ∧
    JSNum.zeroPosOrInf ((App.evaluate i).targetAmount) ∧
    JSNum.zeroPosOrInf ((App.evaluate i).totalVC) ∧
    JSNum.zeroPosOrInf ((App.evaluate i).totalBusinessCost) ∧
    JSNum.zeroPosOrInf ((App.evaluate i).totalAllCost) ∧
    JSNum.zeroPosOrInf ((App.evaluate i).effectiveGrossTp) ∧
    JSNum.zeroPosOrInf ((App.evaluate i).safetyMargin) ∧
    JSNum.finOrPosInf ((App.evaluate i).effectiveNetTp) := by
  by_cases hval : i.p ≤ i.vc
  · rw [App.evaluate, if_pos hval]
    simp only [App.zeroResults]
    refine ⟨?z, ?z, ?z, ?z, ?z, ?z, ?z, ?z, ?z, ?z, ?z, ?z, ?z, Or.inr ⟨0, rfl⟩⟩
    case z => exact JSNum.zeroPosOrInf_fin le_rfl
  · have h : i.vc < i.p := not_le.mp hval
    have hp : (0:ℚ) < i.p := lt_of_le_of_lt hvc h
    have hpne : i.p ≠ 0 := hp.ne'
    have hcm : (0:ℚ) < i.p - i.vc := sub_pos.mpr h
    have hc : 0 < (i.p - i.vc) / i.p := div_pos hcm hp
    have hcmr : App.cmr i = JSNum.fin ((i.p - i.vc) / i.p) :=
      App.cmr_of_p_ne_zero i hpne
    have hbepA : App.bepAmount i = JSNum.fin (i.fc / ((i.p - i.vc) / i.p)) := by
      rw [App.bepAmount, hcmr, JSNum.div_fin_fin _ _ hc.ne']
    rw [App.evaluate_of_valid i h]
    simp only
    refine ⟨JSNum.zeroPosOrInf_fin (by rw [App.cm]; linarith), ?_, ?_, ?_, ?_, ?_, ?_⟩
    · rw [hcmr]
      exact JSNum.zeroPosOrInf_fin hc.le
    · rw [App.bepUnits, App.cm, JSNum.div_fin_fin _ _ hcm.ne']
      exact JSNum.zeroPosOrInf_fin (div_nonneg hfc hcm.le)
    · rw [hbepA]
      exact JSNum.zeroPosOrInf_fin (div_nonneg hfc hc.le)
    · rw [App.bepNetUnits, App.totalFixedCosts, App.cm, JSNum.div_fin_fin _ _ hcm.ne']
      exact JSNum.zeroPosOrInf_fin (div_nonneg (by linarith) hcm.le)
    · rw [App.bepNetAmount, App.totalFixedCosts, hcmr, JSNum.div_fin_fin _ _ hc.ne']
      exact JSNum.zeroPosOrInf_fin (div_nonneg (by linarith) hc.le)
    rcases App.target_trichotomy i h hvc hfc htp hr0 with
      ⟨hu, hta, hg⟩ | ⟨u, a, g, hu, hta, hg, hu0, ha0, hg0, hbep⟩
    · have htvc : App.totalVC i = JSNum.posInf := by
        rw [App.totalVC, if_pos hu]
      have htbc : App.totalBusinessCost i = JSNum.posInf := by
        rw [App.totalBusinessCost, if_pos hu]
      have htac : App.totalAllCost i = JSNum.posInf := by
        rw [App.totalAllCost, if_pos hu]
      have hnet : App.effectiveNetTp i = JSNum.posInf := by
        rw [App.effectiveNetTp, hg]
        simp
      have hsm : App.safetyMargin i = JSNum.fin 0 :=
        App.safetyMargin_of_not_pos i (fun hcon => hcon.2 hta)
      rw [hu, hta, hg, htvc, htbc, htac, hnet, hsm]
      exact ⟨Or.inl rfl, Or.inl rfl, Or.inl rfl, Or.inl rfl, Or.inl rfl,
        Or.inl rfl, JSNum.zeroPosOrInf_fin le_rfl, Or.inl rfl⟩
    · have hune : ¬ App.targetUnits i = JSNum.posInf := by
        rw [hu]
        intro hx
        cases hx
      have htvc : App.totalVC i = JSNum.fin (u * i.vc) := by
        rw [App.totalVC, if_neg hune, hu, JSNum.mul_fin_fin]
      have htbc : App.totalBusinessCost i = JSNum.fin (i.fc + u * i.vc) := by
        rw [App.totalBusinessCost, if_neg hune, htvc, JSNum.add_fin_fin]
      have htac : App.totalAllCost i = JSNum.fin (i.fc + u * i.vc + i.salesExpenses) := by
        rw [App.totalAllCost, if_neg hune, htbc, JSNum.add_fin_fin]
      have hnet : App.effectiveNetTp i = JSNum.fin (g - i.salesExpenses) := by
        rw [App.effectiveNetTp, hg, JSNum.sub_fin_fin]
      have huvc : 0 ≤ u * i.vc := mul_nonneg hu0 hvc
      refine ⟨?_, ?_, ?_, ?_, ?_, ?_, ?_, ?_⟩
      · rw [hu]
        exact JSNum.zeroPosOrInf_fin hu0
      · rw [hta]
        exact JSNum.zeroPosOrInf_fin ha0
      · rw [htvc]
        exact JSNum.zeroPosOrInf_fin huvc
      · rw [htbc]
        exact JSNum.zeroPosOrInf_fin (by linarith)
      · rw [htac]
        exact JSNum.zeroPosOrInf_fin (by linarith)
      · rw [hg]
        exact JSNum.zeroPosOrInf_fin hg0
      · by_cases hapos : 0 < a
        · rw [App.safetyMargin_of_fin_pos i a hta hapos, hbepA,
            JSNum.sub_fin_fin, JSNum.div_fin_fin _ _ hapos.ne']
          exact JSNum.zeroPosOrInf_fin (div_nonneg (by linarith) hapos.le)
        · rw [App.safetyMargin_of_not_pos i ?_]
          · exact JSNum.zeroPosOrInf_fin le_rfl
          · rintro ⟨hgt, -⟩
            rw [hta] at hgt
            simp only [JSNum.gt, JSNum.lt_fin_fin, decide_eq_true_eq] at hgt
            exact hapos hgt
      · rw [hnet]
        exact Or.inr ⟨g - i.salesExpenses, rfl⟩

/-- Witness for C6 (amended) at the default snapshot. -/
theorem claim_C6_witness :
    JSNum.zeroPosOrInf ((App.evaluate DEFAULT_INPUTS).cm) ∧
    JSNum.zeroPosOrInf ((App.evaluate DEFAULT_INPUTS).cmr) ∧
    JSNum.zeroPosOrInf ((App.evaluate DEFAULT_INPUTS).bepUnits) ∧
    JSNum.zeroPosOrInf ((App.evaluate DEFAULT_INPUTS).bepAmount) ∧
    JSNum.zeroPosOrInf ((App.evaluate DEFAULT_INPUTS).bepNetUnits) ∧
    JSNum.zeroPosOrInf ((App.evaluate DEFAULT_INPUTS).bepNetAmount) ∧
    JSNum.zeroPosOrInf ((App.evaluate DEFAULT_INPUTS).targetUnits) ∧
    JSNum.zeroPosOrInf ((App.evaluate DEFAULT_INPUTS).targetAmount) ∧
    JSNum.zeroPosOrInf ((App.evaluate DEFAULT_INPUTS).totalVC) ∧
    JSNum.zeroPosOrInf ((App.evaluate DEFAULT_INPUTS).totalBusinessCost) ∧
    JSNum.zeroPosOrInf ((App.evaluate DEFAULT_INPUTS).totalAllCost) ∧
    JSNum.zeroPosOrInf ((App.evaluate DEFAULT_INPUTS).effectiveGrossTp) ∧
    JSNum.zeroPosOrInf ((App.evaluate DEFAULT_INPUTS).safetyMargin) ∧
    JSNum.finOrPosInf ((App.evaluate DEFAULT_INPUTS).effectiveNetTp) :=
  claim_C6 DEFAULT_INPUTS (by decide) (by decide) (by decide) (by decide)
    (by decide) (by decide) (by decide)
